import Mathlib

/-!
Shallow embedding of Magisk's `resetprop` core
(`src/native/src/resetprop/resetprop.cpp`).

The file models the property-store orchestrator: the name validator
`check_legal_property_name`, the operation flag set `PropFlags`, and the four
operations `set_prop`, `get_prop`, `delete_prop`, `print_props` plus the bulk
loader `load_file` and the high-level once-initializing entry points.

The two backing stores (the live system-property table and the persisted
on-disk store) are external collaborators of the translated file; they are
modelled as association lists in insertion order, and every operation records
the adapter calls it performs (with their arguments) in a trace, so that
statements about *which* store is touched, in what order, and with which
arguments (e.g. the prune flag of a live delete) can be proved.
-/

namespace Resetprop

/-- Flag bitfield, translated from `struct PropFlags` (flags |= 1, 1<<1, 1<<2). -/
structure PropFlags where
  flags : Nat
  deriving DecidableEq

/-- Translated from `PropFlags::setSkipSvc`. -/
def PropFlags.setSkipSvc (f : PropFlags) : PropFlags := ⟨f.flags ||| 1⟩

/-- Translated from `PropFlags::setPersist`. -/
def PropFlags.setPersist (f : PropFlags) : PropFlags := ⟨f.flags ||| 2⟩

/-- Translated from `PropFlags::setContext`. -/
def PropFlags.setContext (f : PropFlags) : PropFlags := ⟨f.flags ||| 4⟩

/-- Translated from `PropFlags::isSkipSvc`. -/
def PropFlags.isSkipSvc (f : PropFlags) : Bool := f.flags &&& 1 != 0

/-- Translated from `PropFlags::isPersist`. -/
def PropFlags.isPersist (f : PropFlags) : Bool := f.flags &&& 2 != 0

/-- Translated from `PropFlags::isContext`. -/
def PropFlags.isContext (f : PropFlags) : Bool := f.flags &&& 4 != 0

/-- Modelled from the spec: `str_starts(s, pre)` is a base-library helper (not
under `src/`) testing whether `s` begins with the literal `pre`. -/
def str_starts (s pre : String) : Bool := pre.toList.isPrefixOf s.toList

/-- Character class of the validator loop's non-dot branch, translated from
`check_legal_property_name`: `_ - @ :`, lowercase, uppercase, digits. -/
def char_ok (c : Char) : Bool :=
  c == '_' || c == '-' || c == '@' || c == ':' ||
  (decide ('a' ≤ c) && decide (c ≤ 'z')) ||
  (decide ('A' ≤ c) && decide (c ≤ 'Z')) ||
  (decide ('0' ≤ c) && decide (c ≤ '9'))

/-- The validator's scan loop, translated from the `for` loop of
`check_legal_property_name`: a dot is rejected when the previous character is
a dot; any other character must be in `char_ok`.  `prev` is the character at
the previous index (the loop body reads `name[i-1]` only on the dot branch). -/
def legal_loop : Char → List Char → Bool
  | _, [] => true
  | prev, c :: rest =>
    if c == '.' then !(prev == '.') && legal_loop c rest
    else char_ok c && legal_loop c rest

/-- Translated from `check_legal_property_name`: non-empty, must not start or
end with a dot, then the scan loop over all characters (index 0 is covered by
the non-dot branch because a leading dot was already rejected). -/
def check_legal_property_name (name : String) : Bool :=
  match name.toList with
  | [] => false
  | c0 :: rest =>
    if c0 == '.' then false
    else if (c0 :: rest).getLast? == some '.' then false
    else char_ok c0 && legal_loop c0 rest

/-- Character class stated from the spec's words: an ASCII letter, a digit,
or one of `. - @ : _`. -/
def isSpecChar (c : Char) : Prop :=
  ('A' ≤ c ∧ c ≤ 'Z') ∨ ('a' ≤ c ∧ c ≤ 'z') ∨ ('0' ≤ c ∧ c ≤ '9') ∨
  c = '.' ∨ c = '-' ∨ c = '@' ∨ c = ':' ∨ c = '_'

instance (c : Char) : Decidable (isSpecChar c) := by
  unfold isSpecChar; infer_instance

/-- The naming grammar stated from the spec's words: non-empty, does not start
or end with `.`, no two consecutive `.`, every character in the legal class. -/
def legal_name_spec (name : String) : Prop :=
  name.toList ≠ [] ∧
  name.toList.head? ≠ some '.' ∧
  name.toList.getLast? ≠ some '.' ∧
  (∀ c ∈ name.toList, isSpecChar c) ∧
  List.Chain' (fun a b => ¬(a = '.' ∧ b = '.')) name.toList

/-- Adapter calls an operation can issue, recorded with their arguments.  The
`live_` constructors are the Live Store Adapter operations (`__system_property_find`,
`__system_property_delete(name, prune)`, `__system_property_update`,
`__system_property_add`, `__system_property_get_context`), `svc_set` is the
mediated `system_property_set` path, and the `persist_` constructors are the
Persisted Store Adapter operations (`persist_getprop`, `persist_deleteprop`). -/
inductive Call where
  | live_find (name : String)
  | live_delete (name : String) (prune : Bool)
  | live_update (name value : String)
  | live_add (name value : String)
  | svc_set (name value : String)
  | get_context (name : String)
  | persist_get (name : String)
  | persist_delete (name : String)
  deriving DecidableEq

/-- Whether a recorded adapter call reads or writes the persisted store. -/
def Call.touchesPersist : Call → Bool
  | Call.persist_get _ => true
  | Call.persist_delete _ => true
  | _ => false

/-- The two backing stores and the per-name security contexts, each an
association list in the adapter's enumeration order with unique names. -/
structure World where
  live : List (String × String)
  ctx : List (String × String)
  persisted : List (String × String)
  deriving DecidableEq

/-- Modelled from the spec: Live Store Adapter `find(name) -> handle-or-null`
(the implementation behind `__system_property_find` is not under `src/`).  The
handle is represented by the entry's value. -/
def live_find (name : String) (st : List (String × String)) : Option String :=
  st.lookup name

/-- Modelled from the spec: Live Store Adapter `delete(name, prune) -> status`
(`__system_property_delete` is not under `src/`): removes the entry when
present (status 0), fails (status 1) when absent.  `prune` only affects the
live table's internal trie structure, which the mapping does not show; it is
recorded in the operation trace. -/
def live_delete (name : String) (_prune : Bool) (st : List (String × String)) :
    Int × List (String × String) :=
  if (st.lookup name).isSome then (0, st.filter (fun kv => kv.1 ≠ name)) else (1, st)

/-- Modelled from the spec: Live Store Adapter `update(handle, value) -> status`
(`__system_property_update` is not under `src/`): in-place value update of an
existing entry. -/
def live_update (name value : String) (st : List (String × String)) :
    Int × List (String × String) :=
  if (st.lookup name).isSome then
    (0, st.map (fun kv => if kv.1 = name then (kv.1, value) else kv))
  else (1, st)

/-- Modelled from the spec: Live Store Adapter `create(name, value) -> status`
(`__system_property_add` is not under `src/`): appends a new entry, failing
when the name already exists. -/
def live_add (name value : String) (st : List (String × String)) :
    Int × List (String × String) :=
  if (st.lookup name).isSome then (1, st) else (0, st ++ [(name, value)])

/-- Modelled from the spec: Live Store Adapter `set(name, value) -> status`,
the mediated `property_service` path (`system_property_set` is resolved from
the platform, not under `src/`): create-or-update on the live store. -/
def svc_set (name value : String) (st : List (String × String)) :
    Int × List (String × String) :=
  if (st.lookup name).isSome then
    (0, st.map (fun kv => if kv.1 = name then (kv.1, value) else kv))
  else (0, st ++ [(name, value)])

/-- Modelled from the spec: Persisted Store Adapter `get(name) -> value-or-empty`
(`persist_getprop` is not under `src/`). -/
def persist_getprop (name : String) (st : List (String × String)) : String :=
  (st.lookup name).getD ""

/-- Modelled from the spec: Persisted Store Adapter `delete(name) -> bool-success`
(`persist_deleteprop` is not under `src/`): succeeds exactly when an entry was
present and removed. -/
def persist_deleteprop (name : String) (st : List (String × String)) :
    Bool × List (String × String) :=
  if (st.lookup name).isSome then (true, st.filter (fun kv => kv.1 ≠ name)) else (false, st)

/-- Result of a mutating operation: the C return status, the world after the
operation, and the trace of adapter calls made, in order. -/
structure OpResult where
  res : Int
  world : World
  trace : List Call
  deriving DecidableEq

/-- Translated from `set_prop(name, value, flags)`: validator first; find the
live entry; an existing `ro.`-prefixed entry is deleted (prune disabled) and
the pointer cleared, so the code then proceeds exactly as "no entry exists";
finally update or create, each through the direct path when `skip-service` is
set and through the mediated service path otherwise. -/
def set_prop (name value : String) (flags : PropFlags) (w : World) : OpResult :=
  if check_legal_property_name name then
    let pi0 := live_find name w.live
    if pi0.isSome && str_starts name "ro." then
      -- Skip pruning nodes as it will be added back at once; afterwards the
      -- code behaves as if no entry exists (create path).
      let d := live_delete name false w.live
      let w1 : World := { w with live := d.2 }
      if flags.isSkipSvc then
        let p := live_add name value w1.live
        ⟨p.1, { w1 with live := p.2 },
          [Call.live_find name, Call.live_delete name false, Call.live_add name value]⟩
      else
        let p := svc_set name value w1.live
        ⟨p.1, { w1 with live := p.2 },
          [Call.live_find name, Call.live_delete name false, Call.svc_set name value]⟩
    else
      match pi0 with
      | some _ =>
        if flags.isSkipSvc then
          let p := live_update name value w.live
          ⟨p.1, { w with live := p.2 }, [Call.live_find name, Call.live_update name value]⟩
        else
          let p := svc_set name value w.live
          ⟨p.1, { w with live := p.2 }, [Call.live_find name, Call.svc_set name value]⟩
      | none =>
        if flags.isSkipSvc then
          let p := live_add name value w.live
          ⟨p.1, { w with live := p.2 }, [Call.live_find name, Call.live_add name value]⟩
        else
          let p := svc_set name value w.live
          ⟨p.1, { w with live := p.2 }, [Call.live_find name, Call.svc_set name value]⟩
  else ⟨1, w, []⟩

/-- Translated from `get_prop(name, flags)` (the static, low-level overload):
validator first; the context query path; otherwise find in the live store,
returning the empty string at once when absent; when found, read the value,
and fall back to the persisted store only when that value is empty, the
`use-persisted` flag is set, and the name starts with `persist.`.  Returns the
value together with the trace of adapter calls. -/
def get_prop (name : String) (flags : PropFlags) (w : World) : String × List Call :=
  if check_legal_property_name name then
    if flags.isContext then
      (((w.ctx.lookup name).getD ""), [Call.get_context name])
    else
      match live_find name w.live with
      | none => ("", [Call.live_find name])
      | some v =>
        if v == "" && flags.isPersist && str_starts name "persist." then
          (persist_getprop name w.persisted, [Call.live_find name, Call.persist_get name])
        else (v, [Call.live_find name])
  else ("", [])

/-- Translated from `delete_prop(name, flags)`: validator first; deep delete
(prune enabled) from the live store; when `use-persisted` is set and the name
starts with `persist.`, also delete from the persisted store, and a successful
persisted deletion overrides the live status with 0. -/
def delete_prop (name : String) (flags : PropFlags) (w : World) : OpResult :=
  if check_legal_property_name name then
    let p := live_delete name true w.live
    let w1 : World := { w with live := p.2 }
    if flags.isPersist && str_starts name "persist." then
      let q := persist_deleteprop name w1.persisted
      ⟨if q.1 then 0 else p.1, { w1 with persisted := q.2 },
        [Call.live_delete name true, Call.persist_delete name]⟩
    else ⟨p.1, w1, [Call.live_delete name true]⟩
  else ⟨1, w, []⟩

/-- Modelled from the spec: `prop_list` with `prop_collector` (declared in
`prop.hpp`, which is not under `src/`) is an ordered name-to-value mapping
with unique keys, insertion order preserved; inserting an already-present name
leaves the existing entry unchanged. -/
def prop_list_insert (list : List (String × String)) (name value : String) :
    List (String × String) :=
  if (list.lookup name).isSome then list else list ++ [(name, value)]

/-- Feeding a store's enumeration through the collector, entry by entry, in
the store's enumeration order (`system_property_foreach` / `persist_getprops`). -/
def collect (entries list : List (String × String)) : List (String × String) :=
  entries.foldl (fun acc kv => prop_list_insert acc kv.1 kv.2) list

/-- Translated from `print_props(flags)`: collect the live enumeration, then,
when `use-persisted` is set, merge in the persisted enumeration; finally print
each collected entry, substituting the security context for the value when
`want-context` is set.  Returns the list of printed (name, value) pairs. -/
def print_props (flags : PropFlags) (w : World) : List (String × String) :=
  let list := collect w.live []
  let list2 := if flags.isPersist then collect w.persisted list else list
  list2.map (fun kv =>
    (kv.1, if flags.isContext then (w.ctx.lookup kv.1).getD "" else kv.2))

/-- Modelled from the spec: `parse_prop_file` (the external line-oriented
parser, not under `src/`) delivers the parsed (name, value) pairs to the
callback in file order, stopping early as soon as the callback returns false.
The parsed pair list is taken as input. -/
def run_parsed_file (pairs : List (String × String))
    (fn : String → String → World → Bool × World) (w : World) : World :=
  match pairs with
  | [] => w
  | (k, v) :: rest =>
    let r := fn k v w
    if r.1 then run_parsed_file rest fn r.2 else r.2

/-- Translated from `load_file(filename, flags)`: feed every parsed pair to
`set_prop` and always return true to the parser (continue past failures). -/
def load_file (pairs : List (String × String)) (flags : PropFlags) (w : World) : World :=
  run_parsed_file pairs (fun k v w0 => (true, (set_prop k v flags w0).world)) w

/-- Process-wide state: the stores plus the number of times the adapter
initialization body (the `Initialize` constructor: resolving the platform
property functions and calling `__system_properties_init`) has run. -/
structure ProcState where
  world : World
  initCount : Nat
  deriving DecidableEq

/-- Translated from `InitOnce()`: the function constructs a function-local
`struct Initialize init;` with automatic storage (it is not declared
`static`), so the `Initialize` constructor body runs on every call.  The
model counts the executions of that body. -/
def InitOnce (n : Nat) : Nat := n + 1

/-- Translated from the high-level `get_prop(name, persist)` entry point. -/
def api_get_prop (name : String) (persist : Bool) (s : ProcState) : String × ProcState :=
  let n := InitOnce s.initCount
  let flags := if persist then PropFlags.setPersist ⟨0⟩ else (⟨0⟩ : PropFlags)
  ((get_prop name flags s.world).1, ⟨s.world, n⟩)

/-- Translated from the high-level `delete_prop(name, persist)` entry point. -/
def api_delete_prop (name : String) (persist : Bool) (s : ProcState) : Int × ProcState :=
  let n := InitOnce s.initCount
  let flags := if persist then PropFlags.setPersist ⟨0⟩ else (⟨0⟩ : PropFlags)
  let r := delete_prop name flags s.world
  (r.res, ⟨r.world, n⟩)

/-- Translated from the high-level `set_prop(name, value, skip_svc)` entry point. -/
def api_set_prop (name value : String) (skip_svc : Bool) (s : ProcState) : Int × ProcState :=
  let n := InitOnce s.initCount
  let flags := if skip_svc then PropFlags.setSkipSvc ⟨0⟩ else (⟨0⟩ : PropFlags)
  let r := set_prop name value flags s.world
  (r.res, ⟨r.world, n⟩)

/-- Translated from the high-level `load_prop_file(filename, skip_svc)` entry
point, over the parsed pair list. -/
def api_load_prop_file (pairs : List (String × String)) (skip_svc : Bool)
    (s : ProcState) : ProcState :=
  let n := InitOnce s.initCount
  let flags := if skip_svc then PropFlags.setSkipSvc ⟨0⟩ else (⟨0⟩ : PropFlags)
  ⟨load_file pairs flags s.world, n⟩

/-- The validator's character class coincides with the spec's class minus the
dot, which the loop handles on its own branch. -/
theorem char_ok_iff (c : Char) : char_ok c = true ↔ (isSpecChar c ∧ c ≠ '.') := by
  unfold char_ok isSpecChar
  simp only [Bool.or_eq_true, Bool.and_eq_true, decide_eq_true_eq, beq_iff_eq]
  constructor
  · rintro ((((((h | h) | h) | h) | h) | h) | h)
    · exact ⟨Or.inr (Or.inr (Or.inr (Or.inr (Or.inr (Or.inr (Or.inr h)))))),
        fun hc => by rw [hc] at h; exact absurd h (by decide)⟩
    · exact ⟨Or.inr (Or.inr (Or.inr (Or.inr (Or.inl h)))),
        fun hc => by rw [hc] at h; exact absurd h (by decide)⟩
    · exact ⟨Or.inr (Or.inr (Or.inr (Or.inr (Or.inr (Or.inl h))))),
        fun hc => by rw [hc] at h; exact absurd h (by decide)⟩
    · exact ⟨Or.inr (Or.inr (Or.inr (Or.inr (Or.inr (Or.inr (Or.inl h)))))),
        fun hc => by rw [hc] at h; exact absurd h (by decide)⟩
    · exact ⟨Or.inr (Or.inl h), fun hc => by rw [hc] at h; exact absurd h (by decide)⟩
    · exact ⟨Or.inl h, fun hc => by rw [hc] at h; exact absurd h (by decide)⟩
    · exact ⟨Or.inr (Or.inr (Or.inl h)), fun hc => by rw [hc] at h; exact absurd h (by decide)⟩
  · rintro ⟨h | h | h | h | h | h | h | h, hne⟩
    · exact Or.inl (Or.inr h)
    · exact Or.inl (Or.inl (Or.inr h))
    · exact Or.inr h
    · exact absurd h hne
    · exact Or.inl (Or.inl (Or.inl (Or.inl (Or.inl (Or.inr h)))))
    · exact Or.inl (Or.inl (Or.inl (Or.inl (Or.inr h))))
    · exact Or.inl (Or.inl (Or.inl (Or.inr h)))
    · exact Or.inl (Or.inl (Or.inl (Or.inl (Or.inl (Or.inl h)))))

/-- The validator's scan loop accepts exactly the suffixes whose characters are
all in the spec class and which, prefixed with the previous character, contain
no two adjacent dots. -/
theorem legal_loop_iff (rest : List Char) (prev : Char) :
    legal_loop prev rest = true ↔
      ((∀ c ∈ rest, isSpecChar c) ∧
        List.Chain' (fun a b => ¬(a = '.' ∧ b = '.')) (prev :: rest)) := by
  induction rest generalizing prev with
  | nil => simp [legal_loop]
  | cons c rest ih =>
    simp only [legal_loop, List.forall_mem_cons, List.chain'_cons]
    by_cases hc : c = '.'
    · subst hc
      have hdot : isSpecChar ('.' : Char) := by decide
      simp only [beq_self_eq_true, if_true, Bool.and_eq_true, Bool.not_eq_true',
        beq_eq_false_iff_ne, ih]
      tauto
    · have hbeq : (c == '.') = false := by simpa using hc
      simp only [hbeq, Bool.false_eq_true, if_false, Bool.and_eq_true, char_ok_iff, ih]
      tauto

/-- The translated validator agrees with the spec's naming grammar. -/
theorem check_legal_iff (name : String) :
    check_legal_property_name name = true ↔ legal_name_spec name := by
  unfold check_legal_property_name legal_name_spec
  cases h : name.toList with
  | nil => simp
  | cons c0 rest =>
    by_cases hc0 : c0 = '.'
    · subst hc0
      simp
    · have hbeq : (c0 == '.') = false := by simpa using hc0
      by_cases hlast : (c0 :: rest).getLast? = some '.'
      · simp [hbeq, hlast]
      · have hlastb : (((c0 :: rest).getLast?) == some '.') = false := by
          simpa using hlast
        simp only [hbeq, hlastb, Bool.false_eq_true, if_false, Bool.and_eq_true,
          char_ok_iff, legal_loop_iff]
        simp only [List.forall_mem_cons, List.head?_cons, Option.some.injEq, ne_eq]
        constructor
        · rintro ⟨⟨h1, h2⟩, h3, h4⟩
          exact ⟨by simp, h2, hlast, ⟨h1, h3⟩, h4⟩
        · rintro ⟨-, -, -, ⟨h1, h3⟩, h4⟩
          exact ⟨⟨h1, hc0⟩, h3, h4⟩

/-- C6: `check_legal_property_name(name)` returns true if and only if name is
non-empty, does not start with '.', does not end with '.', contains no two
consecutive '.' characters, and every character is an ASCII letter, digit, or
one of `. - @ : _`; in particular it returns false for "", ".a", "a.", "a..b"
and true for "a.b-c:d@e_f" and "persist.sys.locale". -/
theorem c6_validator_grammar :
    (∀ name : String, check_legal_property_name name = true ↔ legal_name_spec name) ∧
    check_legal_property_name "" = false ∧
    check_legal_property_name ".a" = false ∧
    check_legal_property_name "a." = false ∧
    check_legal_property_name "a..b" = false ∧
    check_legal_property_name "a.b-c:d@e_f" = true ∧
    check_legal_property_name "persist.sys.locale" = true :=
  ⟨check_legal_iff, by decide, by decide, by decide, by decide, by decide, by decide⟩

/-- C7: the programmatic get API distinguishes a name that has no live entry
from a name whose live value is the empty string: with the `use-persisted`
flag and a persisted entry for the name, the absent state yields "" while the
present-but-empty state yields the persisted value "v". -/
theorem c7_get_absent_vs_empty_distinguishable :
    (get_prop "persist.sys.x" ⟨2⟩ ⟨[], [], [("persist.sys.x", "v")]⟩).1 = "" ∧
    (get_prop "persist.sys.x" ⟨2⟩
      ⟨[("persist.sys.x", "")], [], [("persist.sys.x", "v")]⟩).1 = "v" ∧
    ("" : String) ≠ "v" := by decide

/-- C3 (failing-input evaluation): the adapter initialization body runs once
per entry-point call, not once per process: after two entry-point calls
(`get_prop` then `delete_prop`) starting from a fresh process, the
initialization body has run twice, not once, because `InitOnce` constructs a
non-static local `Initialize` on every call. -/
theorem c3_init_runs_on_every_call :
    (api_delete_prop "a.b" false (api_get_prop "a.b" false ⟨⟨[], [], []⟩, 0⟩).2).2.initCount
        = 2 ∧
    ¬((api_delete_prop "a.b" false
        (api_get_prop "a.b" false ⟨⟨[], [], []⟩, 0⟩).2).2.initCount = 1) := by
  decide

/-- C4 (counterexample): for the legal name "persist.sys.x" absent from the
live store, with `use-persisted` set and a persisted entry "v", `get` returns
the empty string after the live find alone — it does not consult the persisted
store and does not return the persisted value, contrary to the claim's
"empty or the name is absent there" trigger. -/
theorem c4_counterexample_absent_no_fallback :
    get_prop "persist.sys.x" ⟨2⟩ ⟨[], [], [("persist.sys.x", "v")]⟩ =
      ("", [Call.live_find "persist.sys.x"]) ∧
    ("" : String) ≠ "v" := by decide

/-- C4 (amended): for a legal name queried without want-context, `get` consults
the persisted store exactly when the name is present in the live store with an
empty value AND use-persisted is set AND the name starts with "persist."; in
that case it returns the persisted store's value, and in every other case —
including a name absent from the live store — it returns the live value (empty
when absent) without any persisted-store call. -/
theorem c4_get_fallback_requires_live_empty_entry (name : String) (flags : PropFlags)
    (w : World) (h : check_legal_property_name name = true)
    (hctx : flags.isContext = false) :
    (w.live.lookup name = none →
      get_prop name flags w = ("", [Call.live_find name])) ∧
    (∀ v, w.live.lookup name = some v →
      (v = "" ∧ flags.isPersist = true ∧ str_starts name "persist." = true →
        get_prop name flags w =
          ((w.persisted.lookup name).getD "",
            [Call.live_find name, Call.persist_get name])) ∧
      (¬(v = "" ∧ flags.isPersist = true ∧ str_starts name "persist." = true) →
        get_prop name flags w = (v, [Call.live_find name]))) := by
  constructor
  · intro hnone
    simp [get_prop, h, hctx, live_find, hnone]
  · intro v hv
    constructor
    · rintro ⟨h1, h2, h3⟩
      simp [get_prop, h, hctx, live_find, hv, h1, h2, h3, persist_getprop]
    · intro hn
      cases hb : (v == "" && flags.isPersist && str_starts name "persist.") with
      | true =>
        exfalso
        simp only [Bool.and_eq_true, beq_iff_eq] at hb
        exact hn ⟨hb.1.1, hb.1.2, hb.2⟩
      | false =>
        simp [get_prop, h, hctx, live_find, hv, hb]

/-- C4 (amended, witness): for "persist.sys.x" present live with an empty
value, use-persisted set, and a persisted value "v", `get` calls the persisted
store and returns "v". -/
theorem c4_get_fallback_witness :
    get_prop "persist.sys.x" ⟨2⟩
        ⟨[("persist.sys.x", "")], [], [("persist.sys.x", "v")]⟩ =
      ("v", [Call.live_find "persist.sys.x", Call.persist_get "persist.sys.x"]) :=
  ((((c4_get_fallback_requires_live_empty_entry "persist.sys.x" ⟨2⟩
      ⟨[("persist.sys.x", "")], [], [("persist.sys.x", "v")]⟩
      (by decide) (by decide)).2 "" (by decide)).1
      ⟨rfl, by decide, by decide⟩).trans (by decide))

/-- C9: get, set, and delete all apply `check_legal_property_name` first; for
every rejected name, get returns the empty string with no adapter call, set
returns 1 with the world unchanged and no adapter call, and delete returns 1
with the world unchanged and no adapter call. -/
theorem c9_illegal_name_uniform_rejection (name value : String) (flags : PropFlags)
    (w : World) (h : check_legal_property_name name = false) :
    get_prop name flags w = ("", []) ∧
    set_prop name value flags w = ⟨1, w, []⟩ ∧
    delete_prop name flags w = ⟨1, w, []⟩ := by
  refine ⟨?_, ?_, ?_⟩ <;> simp [get_prop, set_prop, delete_prop, h]

/-- C9 (witness): the illegal name ".a" is rejected identically by all three
operations without touching any store. -/
theorem c9_illegal_name_witness :
    check_legal_property_name ".a" = false ∧
    (get_prop ".a" ⟨0⟩ ⟨[], [], []⟩ = ("", []) ∧
      set_prop ".a" "v" ⟨0⟩ ⟨[], [], []⟩ = ⟨1, ⟨[], [], []⟩, []⟩ ∧
      delete_prop ".a" ⟨0⟩ ⟨[], [], []⟩ = ⟨1, ⟨[], [], []⟩, []⟩) :=
  ⟨by decide, c9_illegal_name_uniform_rejection ".a" "v" ⟨0⟩ ⟨[], [], []⟩ (by decide)⟩

/-- C1: for a legal "ro."-prefixed name with an existing live entry, `set`
first deletes the live entry with pruning disabled and then takes the create
path (direct add when skip-service is set, mediated service set otherwise);
it never performs an in-place live update. -/
theorem c1_ro_set_is_delete_then_create (name value : String) (flags : PropFlags)
    (w : World) (h : check_legal_property_name name = true)
    (hro : str_starts name "ro." = true)
    (hex : (w.live.lookup name).isSome = true) :
    (set_prop name value flags w).trace =
      [Call.live_find name, Call.live_delete name false,
        if flags.isSkipSvc then Call.live_add name value else Call.svc_set name value] ∧
    ∀ n v, Call.live_update n v ∉ (set_prop name value flags w).trace := by
  cases hsk : flags.isSkipSvc with
  | false =>
    constructor
    · simp [set_prop, h, hro, live_find, hex, hsk]
    · intro n v
      simp [set_prop, h, hro, live_find, hex, hsk]
  | true =>
    constructor
    · simp [set_prop, h, hro, live_find, hex, hsk]
    · intro n v
      simp [set_prop, h, hro, live_find, hex, hsk]

/-- C1 (witness): setting the existing read-only name "ro.x" deletes it
shallowly and recreates it through the mediated service path. -/
theorem c1_ro_set_witness :
    check_legal_property_name "ro.x" = true ∧
    str_starts "ro.x" "ro." = true ∧
    (set_prop "ro.x" "long" ⟨0⟩ ⟨[("ro.x", "s")], [], []⟩).trace =
      [Call.live_find "ro.x", Call.live_delete "ro.x" false, Call.svc_set "ro.x" "long"] :=
  ⟨by decide, by decide,
    ((c1_ro_set_is_delete_then_create "ro.x" "long" ⟨0⟩ ⟨[("ro.x", "s")], [], []⟩
      (by decide) (by decide) (by decide)).1.trans (by decide))⟩

/-- C8: `set` never reads or writes the persisted store — the persisted
component of the world is unchanged and no recorded adapter call touches the
persisted store — and its result is independent of every flag other than
skip-service. -/
theorem c8_set_prop_persisted_frame (name value : String) (flags g : PropFlags)
    (w : World) :
    (set_prop name value flags w).world.persisted = w.persisted ∧
    (∀ c ∈ (set_prop name value flags w).trace, c.touchesPersist = false) ∧
    (flags.isSkipSvc = g.isSkipSvc → set_prop name value flags w = set_prop name value g w) := by
  refine ⟨?_, ?_, ?_⟩
  · cases hchk : check_legal_property_name name with
    | false => simp [set_prop, hchk]
    | true =>
      cases hf : live_find name w.live <;>
        cases hro : str_starts name "ro." <;>
          cases hsk : flags.isSkipSvc <;>
            simp [set_prop, hchk, hf, hro, hsk]
  · cases hchk : check_legal_property_name name with
    | false => simp [set_prop, hchk]
    | true =>
      cases hf : live_find name w.live <;>
        cases hro : str_starts name "ro." <;>
          cases hsk : flags.isSkipSvc <;>
            simp [set_prop, hchk, hf, hro, hsk, Call.touchesPersist]
  · intro hfg
    simp only [set_prop, hfg]

/-- C8 (witness): with the persist and context bits set but skip-service
equal, `set` gives the same result as with no extra bits, and the persisted
store is untouched. -/
theorem c8_set_prop_frame_witness :
    (set_prop "a.b" "v" ⟨6⟩ ⟨[], [], [("persist.a", "x")]⟩).world.persisted =
        [("persist.a", "x")] ∧
    (PropFlags.isSkipSvc ⟨6⟩ = PropFlags.isSkipSvc ⟨0⟩ →
      set_prop "a.b" "v" ⟨6⟩ ⟨[], [], [("persist.a", "x")]⟩ =
        set_prop "a.b" "v" ⟨0⟩ ⟨[], [], [("persist.a", "x")]⟩) :=
  ⟨(c8_set_prop_persisted_frame "a.b" "v" ⟨6⟩ ⟨0⟩ ⟨[], [], [("persist.a", "x")]⟩).1,
    (c8_set_prop_persisted_frame "a.b" "v" ⟨6⟩ ⟨0⟩ ⟨[], [], [("persist.a", "x")]⟩).2.2⟩

/-- C5: for a legal name, a successful persisted-store deletion (attempted
exactly when use-persisted is set and the name starts with "persist.") makes
`delete` return 0 regardless of the live-store status; otherwise the returned
status is exactly the live-store deep-delete status. -/
theorem c5_delete_persist_success_overrides (name : String) (flags : PropFlags)
    (w : World) (h : check_legal_property_name name = true) :
    ((flags.isPersist = true ∧ str_starts name "persist." = true ∧
        (persist_deleteprop name w.persisted).1 = true) →
      (delete_prop name flags w).res = 0) ∧
    ((flags.isPersist = false ∨ str_starts name "persist." = false ∨
        (persist_deleteprop name w.persisted).1 = false) →
      (delete_prop name flags w).res = (live_delete name true w.live).1) := by
  constructor
  · rintro ⟨h1, h2, h3⟩
    simp [delete_prop, h, h1, h2, h3]
  · rintro (h1 | h1 | h1)
    · simp [delete_prop, h, h1]
    · simp [delete_prop, h, h1]
    · cases hp : flags.isPersist <;> cases hs : str_starts name "persist." <;>
        simp [delete_prop, h, hp, hs, h1]

/-- C5 (witness): deleting "persist.a", never present live but present in the
persisted store, reports overall success (0) although the live deep delete
fails (1). -/
theorem c5_delete_override_witness :
    check_legal_property_name "persist.a" = true ∧
    (delete_prop "persist.a" ⟨2⟩ ⟨[], [], [("persist.a", "x")]⟩).res = 0 ∧
    (live_delete "persist.a" true ([] : List (String × String))).1 = 1 :=
  ⟨by decide,
    (c5_delete_persist_success_overrides "persist.a" ⟨2⟩ ⟨[], [], [("persist.a", "x")]⟩
      (by decide)).1 ⟨by decide, by decide, by decide⟩,
    by decide⟩

/-- Lookup in an appended association list: the left list wins. -/
theorem lookup_append (l1 l2 : List (String × String)) (a : String) :
    (l1 ++ l2).lookup a = (l1.lookup a).or (l2.lookup a) := by
  induction l1 with
  | nil => simp [List.lookup]
  | cons kv l1 ih =>
    obtain ⟨k, b⟩ := kv
    simp only [List.cons_append, List.lookup]
    cases a == k <;> simp [ih]

/-- Feeding entries with pairwise-distinct names through the collector appends
exactly the entries whose names are not already in the list, in order. -/
theorem collect_append_filter (entries : List (String × String)) :
    ∀ list : List (String × String), (entries.map Prod.fst).Nodup →
      collect entries list =
        list ++ entries.filter (fun kv => (list.lookup kv.1).isNone) := by
  induction entries with
  | nil =>
    intro list _
    simp [collect]
  | cons e es ih =>
    intro list hnd
    rw [List.map_cons, List.nodup_cons] at hnd
    obtain ⟨hk, hnd'⟩ := hnd
    have hstep : collect (e :: es) list = collect es (prop_list_insert list e.1 e.2) := rfl
    rw [hstep]
    cases hl : list.lookup e.1 with
    | some v =>
      have hins : prop_list_insert list e.1 e.2 = list := by
        simp [prop_list_insert, hl]
      rw [hins, ih list hnd']
      simp [List.filter_cons, hl]
    | none =>
      have hins : prop_list_insert list e.1 e.2 = list ++ [(e.1, e.2)] := by
        simp [prop_list_insert, hl]
      rw [hins, ih _ hnd']
      have hfe : es.filter (fun kv => ((list ++ [(e.1, e.2)]).lookup kv.1).isNone) =
          es.filter (fun kv => (list.lookup kv.1).isNone) := by
        apply List.filter_congr
        intro kv hkv
        have hne : (kv.1 == e.1) = false := by
          have hne' : kv.1 ≠ e.1 := by
            intro hEq
            exact hk (hEq ▸ List.mem_map_of_mem Prod.fst hkv)
          simpa using hne'
        rw [lookup_append]
        cases hkl : list.lookup kv.1 with
        | some u => simp [Option.or]
        | none => simp [Option.or, List.lookup, hne]
      rw [hfe]
      simp [List.filter_cons, hl, List.append_assoc]

/-- C2: with use-persisted set and want-context unset, enumeration emits the
live entries in the live store's order followed by exactly those persisted
entries whose names the live store does not contain, in the persisted store's
order; a name already emitted live keeps its live value. -/
theorem c2_print_props_first_seen_merge (flags : PropFlags) (w : World)
    (hp : flags.isPersist = true) (hc : flags.isContext = false)
    (h1 : (w.live.map Prod.fst).Nodup) (h2 : (w.persisted.map Prod.fst).Nodup) :
    print_props flags w =
      w.live ++ w.persisted.filter (fun kv => (w.live.lookup kv.1).isNone) := by
  unfold print_props
  have hlive : collect w.live [] = w.live := by
    rw [collect_append_filter _ _ h1]
    simp [List.lookup]
  rw [hlive]
  simp only [hp, if_true]
  rw [collect_append_filter _ _ h2]
  simp [hc]

/-- C2 (witness): the spec's example — live {A→1, B→2} and persisted
{B→9, C→3} enumerate as A→1, B→2, C→3. -/
theorem c2_print_props_witness :
    print_props ⟨2⟩ ⟨[("A", "1"), ("B", "2")], [], [("B", "9"), ("C", "3")]⟩ =
      [("A", "1"), ("B", "2"), ("C", "3")] :=
  ((c2_print_props_first_seen_merge ⟨2⟩
      ⟨[("A", "1"), ("B", "2")], [], [("B", "9"), ("C", "3")]⟩
      (by decide) (by decide) (by decide) (by decide)).trans (by decide))

/-- The loader's callback always answers true, so the parser never stops
early and the file's pairs are folded through `set_prop` left to right. -/
theorem load_file_foldl (pairs : List (String × String)) (flags : PropFlags) :
    ∀ w : World, load_file pairs flags w =
      pairs.foldl (fun acc kv => (set_prop kv.1 kv.2 flags acc).world) w := by
  induction pairs with
  | nil =>
    intro w
    rfl
  | cons kv rest ih =>
    intro w
    obtain ⟨k, v⟩ := kv
    simp only [load_file, run_parsed_file, if_true, List.foldl_cons]
    exact ih _

/-- C10: the loader invokes `set_prop` on each parsed pair in file order and
continues past failures: the run is exactly the left fold of `set_prop` over
all the pairs; in the spec's 3-line example with an illegal name on line 2,
lines 1 and 3 are applied, line 2 returns failure without changing the world,
and the loader completes the whole file. -/
theorem c10_load_file_applies_every_pair :
    (∀ (pairs : List (String × String)) (flags : PropFlags) (w : World),
      load_file pairs flags w =
        pairs.foldl (fun acc kv => (set_prop kv.1 kv.2 flags acc).world) w) ∧
    (load_file [("a.b", "1"), (".bad", "2"), ("c.d", "3")] ⟨1⟩ ⟨[], [], []⟩).live =
      [("a.b", "1"), ("c.d", "3")] ∧
    (set_prop ".bad" "2" ⟨1⟩ (set_prop "a.b" "1" ⟨1⟩ ⟨[], [], []⟩).world).res = 1 ∧
    (set_prop ".bad" "2" ⟨1⟩ (set_prop "a.b" "1" ⟨1⟩ ⟨[], [], []⟩).world).world =
      (set_prop "a.b" "1" ⟨1⟩ ⟨[], [], []⟩).world :=
  ⟨fun pairs flags => load_file_foldl pairs flags, by decide, by decide, by decide⟩

end Resetprop
